import Mathlib

/-
  Shallow embedding of the ffweb front-end (src/src/app.rs, src/src/util.rs).

  The application state, the dropped-file intake, the load dispatcher, the
  channel-draining message handler and the URL helper are translated from the
  Rust source.  Opaque external values (the fluxfox `DiskImage` handle and
  `DiskImageError`) are modelled as identifiers; the external library's
  behaviour (callback invocations and the result of `DiskImage::load`) and the
  host environment's inputs (dropped files, base URL, spawn success) enter as
  parameters.  The mpsc channel is modelled by the list of messages drained in
  one frame, in arrival order.
-/

namespace FFWeb

/-- Opaque decoded disk-image handle produced by the external fluxfox
library; modelled as an identifier since this repository never inspects it
beyond storing and displaying it. -/
abbrev DiskImage := Nat

/-- Opaque error value produced by the external fluxfox library. -/
abbrev DiskImageError := Nat

/-- fluxfox `LoadingStatus` values passed to the progress callback.  The
worker closure in `handle_dropped_files` matches only the `Progress` variant
and ignores everything else (`_ => {}`); `Other` stands for any
non-`Progress` variant. -/
inductive LoadingStatus where
  | Progress (progress : ℚ)
  | Other
deriving DecidableEq

/-- `ThreadLoadStatus` from app.rs: the message type sent over the sync
channel from the worker thread to the UI thread.  The `f64` progress
fraction is modelled as a rational. -/
inductive ThreadLoadStatus where
  | Inactive
  | Loading (progress : ℚ)
  | Success (disk : DiskImage)
  | Error (e : DiskImageError)
deriving DecidableEq

/-- `RunMode` from app.rs: Reactive repaints only on events, Continuous
requests a repaint every frame. -/
inductive RunMode where
  | Reactive
  | Continuous
deriving DecidableEq

/-- `PersistentState` from app.rs: a single display label string,
serialized on shutdown and restored on startup (with
`#[serde(default)]` and a derived `Default`). -/
structure PersistentState where
  label : String
deriving DecidableEq

/-- The derived `Default` for `PersistentState`: the empty string, since
Rust's `String::default()` is empty. -/
def PersistentState.defaultValue : PersistentState := { label := "" }

/-- A serialized snapshot of `PersistentState` as a record of optionally
present fields: `label = none` models an old snapshot in which the `label`
field is missing. -/
structure SavedState where
  label : Option String
deriving DecidableEq

/-- Saving via `eframe::set_value` serializes every field of the struct. -/
def savePersistentState (s : PersistentState) : SavedState :=
  { label := some s.label }

/-- Loading via `eframe::get_value`: the `#[serde(default)]` attribute on
`PersistentState` fills every missing field from the derived `Default`. -/
def loadPersistentState (b : SavedState) : PersistentState :=
  { label := b.label.getD PersistentState.defaultValue.label }

/-- An `egui::DroppedFile` as used by app.rs: a name, a MIME type, and a
byte buffer that may still be absent when the drop event arrives. -/
structure DroppedFile where
  name : String
  mime : String
  bytes : Option (List Nat)
deriving DecidableEq

/-- The UI-thread application state from `struct App` in app.rs, restricted
to the fields the load pipeline reads or writes.  The channel endpoints are
modelled by message lists passed to the handlers; `ctx_init` and
`viz_state` play no role in the claims. -/
structure App where
  p_state : PersistentState
  run_mode : RunMode
  dropped_files : List DroppedFile
  load_status : ThreadLoadStatus
  disk_image_name : Option String
  disk_image : Option DiskImage
deriving DecidableEq

/-- `App::default()` from app.rs. -/
def App.defaultApp : App :=
  { p_state := { label := "Hello World!" }
    run_mode := RunMode.Reactive
    dropped_files := []
    load_status := ThreadLoadStatus.Inactive
    disk_image_name := none
    disk_image := none }

/-- Rust `str::trim_end_matches` specialised to a single pattern
character: repeatedly removes the character from the end. -/
def trimEndMatches (s : String) (c : Char) : String :=
  String.mk ((s.data.reverse.dropWhile (fun x => x = c)).reverse)

/-- Rust `str::trim_start_matches` specialised to a single pattern
character: repeatedly removes the character from the start. -/
def trimStartMatches (s : String) (c : Char) : String :=
  String.mk (s.data.dropWhile (fun x => x = c))

/-- `construct_full_url` from util.rs:
`format!("{}/{}", base_url.trim_end_matches('/'), relative_path.trim_start_matches('/'))`.
The base URL, obtained at runtime from the host page via `getBaseURL()`,
is passed in as a parameter. -/
def construct_full_url (base_url : String) (relative_path : String) : String :=
  trimEndMatches base_url '/' ++ "/" ++ trimStartMatches relative_path '/'

/-- The intake step of `handle_dropped_files` (app.rs lines 321-332): if
the per-frame input snapshot contains dropped files, take the first one,
but only when `self.dropped_files` is empty; otherwise the new drop is
ignored. -/
def intakeDroppedFiles (app : App) (raw_dropped : List DroppedFile) : App :=
  match raw_dropped.head? with
  | some new_dropped_file =>
      if app.dropped_files.isEmpty then
        { app with dropped_files := [new_dropped_file] }
      else app
  | none => app

/-- The dispatch step of `handle_dropped_files` (app.rs lines 334-393): if
a tracked file's bytes are available, clear the stored disk image, record
the new name, attempt to spawn the worker (`spawnOk` says whether
`worker::spawn_closure_worker` returned `Ok`; on `Ok` the run mode becomes
Continuous, on `Err` the error is only logged), and clear the
dropped-file slot in either case.  When no bytes are available yet the
state is unchanged (only a repaint is requested). -/
def processPendingFile (spawnOk : Bool) (app : App) : App :=
  match app.dropped_files.head? with
  | some file =>
      match file.bytes with
      | some _ =>
          let app1 := { app with
            disk_image := none
            disk_image_name := some file.name }
          let app2 :=
            if spawnOk then { app1 with run_mode := RunMode.Continuous } else app1
          { app2 with dropped_files := [] }
      | none => app
  | none => app

/-- `handle_dropped_files` from app.rs: intake of the frame's drop
snapshot followed by processing of the pending file. -/
def handle_dropped_files (raw_dropped : List DroppedFile) (spawnOk : Bool)
    (app : App) : App :=
  processPendingFile spawnOk (intakeDroppedFiles app raw_dropped)

/-- The effect of one drained message in `handle_load_messages` (app.rs
lines 234-267): `Loading` stores the progress, `Success` stores the new
handle, resets the status and returns to Reactive, `Error` stores the
error and returns to Reactive, and a drained `Inactive` is ignored
(`_ => {}`). -/
def processMessage (app : App) (status : ThreadLoadStatus) : App :=
  match status with
  | ThreadLoadStatus.Loading progress =>
      { app with load_status := ThreadLoadStatus.Loading progress }
  | ThreadLoadStatus.Success disk =>
      { app with
        disk_image := some disk
        load_status := ThreadLoadStatus.Inactive
        run_mode := RunMode.Reactive }
  | ThreadLoadStatus.Error e =>
      { app with
        load_status := ThreadLoadStatus.Error e
        run_mode := RunMode.Reactive }
  | ThreadLoadStatus.Inactive => app

/-- `handle_load_messages` from app.rs: the UI thread keeps polling
`try_recv` until the channel is empty, applying each message's effect in
arrival order; `msgs` is the channel content drained this frame. -/
def handle_load_messages (app : App) (msgs : List ThreadLoadStatus) : App :=
  msgs.foldl processMessage app

/-- `handle_loading_progress` from app.rs: the progress bar is shown,
with the stored fraction, exactly when the load status is `Loading`. -/
def handle_loading_progress (app : App) : Option ℚ :=
  match app.load_status with
  | ThreadLoadStatus.Loading progress => some progress
  | _ => none

/-- The progress callback handed to `DiskImage::load` by the worker
closure: a `Progress` invocation sends `Loading(fraction)` over the
channel, every other `LoadingStatus` is ignored. -/
def workerCallback (status : LoadingStatus) : Option ThreadLoadStatus :=
  match status with
  | LoadingStatus.Progress progress => some (ThreadLoadStatus.Loading progress)
  | LoadingStatus.Other => none

/-- The single terminal message the worker sends once `DiskImage::load`
returns: `Success(disk)` on `Ok`, `Error(e)` on `Err`. -/
def terminalMessage (load_result : Except DiskImageError DiskImage) :
    ThreadLoadStatus :=
  match load_result with
  | Except.ok disk => ThreadLoadStatus.Success disk
  | Except.error e => ThreadLoadStatus.Error e

/-- The full message sequence one worker-thread run sends over the
channel: the callback invocations made by the external library during
`DiskImage::load` (in order), then the terminal message for the returned
result. -/
def workerRun (callback_events : List LoadingStatus)
    (load_result : Except DiskImageError DiskImage) : List ThreadLoadStatus :=
  callback_events.filterMap workerCallback ++ [terminalMessage load_result]

/-- The messages a dispatch attempt produces: the worker's messages when
the spawn succeeded, none at all when `worker::spawn_closure_worker`
failed (the closure never runs). -/
def dispatchMessages (spawnOk : Bool) (callback_events : List LoadingStatus)
    (load_result : Except DiskImageError DiskImage) : List ThreadLoadStatus :=
  if spawnOk then workerRun callback_events load_result else []

/-- A terminal channel message: `Success` or `Error`. -/
def isTerminal : ThreadLoadStatus → Bool
  | ThreadLoadStatus.Success _ => true
  | ThreadLoadStatus.Error _ => true
  | _ => false

/-- A `Loading` channel message. -/
def isLoadingMsg : ThreadLoadStatus → Bool
  | ThreadLoadStatus.Loading _ => true
  | _ => false

/-- The file tracked in the pending slot after this frame's intake. -/
def pendingAfterIntake (app : App) (raw_dropped : List DroppedFile) :
    Option DroppedFile :=
  (intakeDroppedFiles app raw_dropped).dropped_files.head?

/-- Whether this frame's `handle_dropped_files` call dispatches a load:
after intake there is a tracked file whose bytes are available. -/
def dispatchTaken (app : App) (raw_dropped : List DroppedFile) : Bool :=
  match pendingAfterIntake app raw_dropped with
  | some f => f.bytes.isSome
  | none => false

/-- One frame of `App::update` as it affects the load pipeline:
`handle_dropped_files` runs first, then `handle_load_messages` drains the
channel. -/
def appUpdate (raw_dropped : List DroppedFile) (spawnOk : Bool)
    (msgs : List ThreadLoadStatus) (app : App) : App :=
  handle_load_messages (handle_dropped_files raw_dropped spawnOk app) msgs

/-- A `Success` channel message. -/
def isSuccess : ThreadLoadStatus → Bool
  | ThreadLoadStatus.Success _ => true
  | _ => false

/-- Concrete dropped file with bytes available, used as a test input. -/
def fileA : DroppedFile := { name := "a.img", mime := "", bytes := some [0] }

/-- A second concrete dropped file with bytes available. -/
def fileB : DroppedFile := { name := "b.img", mime := "", bytes := some [1] }

/-- Concrete dropped file whose byte buffer has not arrived yet. -/
def fileNoBytes : DroppedFile := { name := "c.img", mime := "", bytes := none }

/-- The state after one frame in which `fileA` was dropped with bytes
available and the worker spawned successfully: the load is in flight, the
pending slot is cleared, the run mode is Continuous. -/
def inFlightApp : App := appUpdate [fileA] true [] App.defaultApp

/-- A state tracking a pending dropped file whose bytes are absent. -/
def appWithPending : App := { App.defaultApp with dropped_files := [fileNoBytes] }

/-- A state with a previously loaded disk image stored. -/
def appWithImage : App :=
  { App.defaultApp with disk_image := some 5, disk_image_name := some "old.img" }

theorem intake_run_mode (app : App) (raw : List DroppedFile) :
    (intakeDroppedFiles app raw).run_mode = app.run_mode := by
  unfold intakeDroppedFiles
  cases raw.head? with
  | none => rfl
  | some f =>
    by_cases h : app.dropped_files.isEmpty <;> simp [h]

theorem intake_of_pending (app : App) (raw : List DroppedFile)
    (h : app.dropped_files ≠ []) : intakeDroppedFiles app raw = app := by
  unfold intakeDroppedFiles
  cases raw.head? with
  | none => rfl
  | some f =>
    simp [List.isEmpty_iff, h]

theorem handle_load_messages_run_mode (app : App) (msgs : List ThreadLoadStatus) :
    (handle_load_messages app msgs).run_mode =
      if msgs.any isTerminal then RunMode.Reactive else app.run_mode := by
  induction msgs generalizing app with
  | nil => rfl
  | cons m rest ih =>
    show (handle_load_messages (processMessage app m) rest).run_mode = _
    rw [ih (processMessage app m)]
    cases m <;> simp [processMessage, isTerminal, List.any_cons]

theorem handle_load_messages_disk_image (app : App) (msgs : List ThreadLoadStatus)
    (h : ∀ m ∈ msgs, isSuccess m = false) :
    (handle_load_messages app msgs).disk_image = app.disk_image := by
  induction msgs generalizing app with
  | nil => rfl
  | cons m rest ih =>
    show (handle_load_messages (processMessage app m) rest).disk_image = _
    rw [ih (processMessage app m) (fun x hx => h x (List.mem_cons_of_mem m hx))]
    have hm : isSuccess m = false := h m (List.mem_cons_self m rest)
    cases m with
    | Inactive => rfl
    | Loading q => rfl
    | Success d => simp [isSuccess] at hm
    | Error e => rfl

theorem handle_load_messages_loading (app : App) (ps : List ℚ) (p : ℚ)
    (h : ps.getLast? = some p) :
    (handle_load_messages app (ps.map ThreadLoadStatus.Loading)).load_status =
      ThreadLoadStatus.Loading p := by
  induction ps generalizing app with
  | nil => simp at h
  | cons q rest ih =>
    cases rest with
    | nil =>
      simp at h
      subst h
      rfl
    | cons q' rest' =>
      rw [List.getLast?_cons_cons] at h
      exact ih (processMessage app (ThreadLoadStatus.Loading q)) h

theorem handle_dropped_files_run_mode (raw : List DroppedFile) (spawnOk : Bool)
    (app : App) :
    (handle_dropped_files raw spawnOk app).run_mode =
      if dispatchTaken app raw && spawnOk then RunMode.Continuous
      else app.run_mode := by
  have hrm : (intakeDroppedFiles app raw).run_mode = app.run_mode :=
    intake_run_mode app raw
  unfold handle_dropped_files processPendingFile dispatchTaken pendingAfterIntake
  cases hh : (intakeDroppedFiles app raw).dropped_files.head? with
  | none => simp [hh, hrm]
  | some f =>
    cases hb : f.bytes with
    | none => simp [hh, hb, hrm]
    | some bs => cases spawnOk <;> simp [hh, hb, hrm]

theorem handle_dropped_files_dispatch (raw : List DroppedFile) (spawnOk : Bool)
    (app : App) (f : DroppedFile)
    (hf : pendingAfterIntake app raw = some f) (hb : f.bytes.isSome = true) :
    (handle_dropped_files raw spawnOk app).disk_image = none ∧
    (handle_dropped_files raw spawnOk app).disk_image_name = some f.name ∧
    (handle_dropped_files raw spawnOk app).dropped_files = [] := by
  unfold pendingAfterIntake at hf
  unfold handle_dropped_files processPendingFile
  rw [hf]
  cases hbb : f.bytes with
  | none => rw [hbb] at hb; simp at hb
  | some bs => cases spawnOk <;> simp [hbb]

theorem handle_dropped_files_no_bytes (raw : List DroppedFile) (spawnOk : Bool)
    (app : App) (f : DroppedFile) (rest : List DroppedFile)
    (hpend : app.dropped_files = f :: rest) (hbytes : f.bytes = none) :
    handle_dropped_files raw spawnOk app = app := by
  have hi : intakeDroppedFiles app raw = app := by
    apply intake_of_pending
    rw [hpend]
    exact List.cons_ne_nil f rest
  unfold handle_dropped_files
  rw [hi]
  unfold processPendingFile
  rw [hpend]
  simp [hbytes]

theorem trimEndMatches_append (b : String) :
    trimEndMatches (b ++ "/") '/' = trimEndMatches b '/' := by
  unfold trimEndMatches
  rw [String.data_append]
  have hd : ("/" : String).data = ['/'] := rfl
  rw [hd]
  simp [List.reverse_append, List.dropWhile]

theorem trimStartMatches_append (r : String) :
    trimStartMatches ("/" ++ r) '/' = trimStartMatches r '/' := by
  unfold trimStartMatches
  rw [String.data_append]
  have hd : ("/" : String).data = ['/'] := rfl
  rw [hd]
  simp [List.dropWhile]

theorem workerCallback_no_terminal (callback_events : List LoadingStatus) :
    (callback_events.filterMap workerCallback).all isLoadingMsg = true ∧
    (callback_events.filterMap workerCallback).filter isTerminal = [] := by
  induction callback_events with
  | nil => exact ⟨rfl, rfl⟩
  | cons ev rest ih =>
    cases ev with
    | Progress q =>
      refine ⟨?_, ?_⟩
      · simpa [List.filterMap_cons, workerCallback, isLoadingMsg] using ih.1
      · simpa [List.filterMap_cons, workerCallback, isTerminal] using ih.2
    | Other =>
      simpa [List.filterMap_cons, workerCallback] using ih

theorem terminalMessage_isTerminal (load_result : Except DiskImageError DiskImage) :
    isTerminal (terminalMessage load_result) = true := by
  cases load_result <;> rfl

/-- C1 counterexample: the guard in `handle_dropped_files` only checks the
pending-file slot, which is cleared at dispatch time; after one frame that
dispatched a load for `fileA` (load still in flight: run mode Continuous,
no terminal message drained), dropping `fileB` in the next frame is NOT
ignored — it is accepted and dispatches a second load while the first is
still running. -/
theorem c1_counterexample :
    inFlightApp.run_mode = RunMode.Continuous ∧
    inFlightApp.dropped_files = [] ∧
    inFlightApp.disk_image_name = some "a.img" ∧
    dispatchTaken inFlightApp [fileB] = true ∧
    (appUpdate [fileB] true [] inFlightApp).disk_image_name = some "b.img" := by
  refine ⟨rfl, rfl, rfl, ?_, ?_⟩ <;> decide

/-- C1 (amended): a newly dropped file is ignored while a previously
dropped file is still pending (bytes not yet available): the whole frame
handler is a no-op, so the pending slot keeps its current file and nothing
is dispatched.  The guard does not extend to in-flight loads: once the
pending slot is cleared at dispatch, a file dropped while that load is
still running is accepted and dispatches a second load. -/
theorem c1_pending_drop_is_ignored (app : App) (raw_dropped : List DroppedFile)
    (spawnOk : Bool) (f : DroppedFile) (rest : List DroppedFile)
    (hpend : app.dropped_files = f :: rest) (hbytes : f.bytes = none) :
    handle_dropped_files raw_dropped spawnOk app = app :=
  handle_dropped_files_no_bytes raw_dropped spawnOk app f rest hpend hbytes

/-- C1 witness: dropping `fileB` while `fileNoBytes` is still pending
leaves the state unchanged. -/
theorem c1_pending_drop_is_ignored_witness :
    handle_dropped_files [fileB] true appWithPending = appWithPending :=
  c1_pending_drop_is_ignored appWithPending [fileB] true fileNoBytes []
    rfl rfl

/-- C2 counterexample: `construct_full_url` only trims slashes; a leading
"./" on the relative path is preserved, so resolving "./x.png" against
base "http://host/app" yields "http://host/app/./x.png", not the claimed
"http://host/app/x.png". -/
theorem c2_counterexample :
    construct_full_url "http://host/app" "./x.png" = "http://host/app/./x.png" ∧
    construct_full_url "http://host/app" "./x.png" ≠ "http://host/app/x.png" := by
  exact ⟨by decide, by decide⟩

/-- C2 (amended): asset URL resolution joins the trailing-slash-trimmed
base and the leading-slash-trimmed path with exactly one separating slash:
appending a trailing slash to the base or prepending a leading slash to
the path never changes the result, and a path without a "./" prefix
resolves as the claim states; a leading "./" is preserved verbatim, so
"./x.png" against "http://host/app" yields "http://host/app/./x.png". -/
theorem c2_url_resolution (b r : String) :
    construct_full_url (b ++ "/") r = construct_full_url b r ∧
    construct_full_url b ("/" ++ r) = construct_full_url b r ∧
    construct_full_url "http://host/app" "x.png" = "http://host/app/x.png" ∧
    construct_full_url "http://host/app/" "/x.png" = "http://host/app/x.png" ∧
    construct_full_url "http://host/app" "./x.png" = "http://host/app/./x.png" := by
  refine ⟨?_, ?_, by decide, by decide, by decide⟩
  · unfold construct_full_url
    rw [trimEndMatches_append]
  · unfold construct_full_url
    rw [trimStartMatches_append]

/-- C3: whenever a `Success(disk)` message is drained, immediately
afterwards the run mode is Reactive, the stored disk-image handle is
exactly the one carried by the message (replacing any previous handle),
and the load status is reset to Inactive. -/
theorem c3_success_drained (app : App) (pre : List ThreadLoadStatus)
    (disk : DiskImage) :
    (handle_load_messages app (pre ++ [ThreadLoadStatus.Success disk])).run_mode =
      RunMode.Reactive ∧
    (handle_load_messages app (pre ++ [ThreadLoadStatus.Success disk])).disk_image =
      some disk ∧
    (handle_load_messages app (pre ++ [ThreadLoadStatus.Success disk])).load_status =
      ThreadLoadStatus.Inactive := by
  unfold handle_load_messages
  rw [List.foldl_append]
  exact ⟨rfl, rfl, rfl⟩

/-- C4: dispatching a load for a dropped file whose bytes are available
clears the stored disk-image handle at dispatch time, before any message
is drained; consequently, when the dispatched load's own messages (zero or
more `Loading` updates followed by `Error`) are drained, the run mode is
Reactive and no disk-image handle is stored. -/
theorem c4_dispatch_clears_then_error (app : App) (raw_dropped : List DroppedFile)
    (spawnOk : Bool) (f : DroppedFile) (ps : List ℚ) (e : DiskImageError)
    (hf : pendingAfterIntake app raw_dropped = some f)
    (hb : f.bytes.isSome = true) :
    (handle_dropped_files raw_dropped spawnOk app).disk_image = none ∧
    (handle_load_messages (handle_dropped_files raw_dropped spawnOk app)
      (ps.map ThreadLoadStatus.Loading ++ [ThreadLoadStatus.Error e])).run_mode =
      RunMode.Reactive ∧
    (handle_load_messages (handle_dropped_files raw_dropped spawnOk app)
      (ps.map ThreadLoadStatus.Loading ++ [ThreadLoadStatus.Error e])).disk_image =
      none := by
  obtain ⟨h1, _, _⟩ := handle_dropped_files_dispatch raw_dropped spawnOk app f hf hb
  refine ⟨h1, ?_, ?_⟩
  · rw [handle_load_messages_run_mode]
    simp [isTerminal]
  · rw [handle_load_messages_disk_image]
    · exact h1
    · intro m hm
      rcases List.mem_append.mp hm with h | h
      · obtain ⟨p, _, rfl⟩ := List.mem_map.mp h
        rfl
      · rw [List.mem_singleton.mp h]
        rfl

/-- C4 witness: dropping `fileA` on the default state and then draining a
`Loading` update and an `Error`. -/
theorem c4_witness :
    (handle_dropped_files [fileA] true App.defaultApp).disk_image = none ∧
    (handle_load_messages (handle_dropped_files [fileA] true App.defaultApp)
      ([(1 : ℚ)/2].map ThreadLoadStatus.Loading ++ [ThreadLoadStatus.Error 3])).run_mode =
      RunMode.Reactive ∧
    (handle_load_messages (handle_dropped_files [fileA] true App.defaultApp)
      ([(1 : ℚ)/2].map ThreadLoadStatus.Loading ++ [ThreadLoadStatus.Error 3])).disk_image =
      none :=
  c4_dispatch_clears_then_error App.defaultApp [fileA] true fileA [(1 : ℚ)/2] 3
    (by decide) (by decide)

/-- C5: the UI drains the channel fully each tick, applying messages in
order; after draining a nonempty sequence of `Loading` messages with
fractions in [0,1] the visible progress is the most recently drained
value, and once the following terminal message is drained the progress bar
is gone. -/
theorem c5_progress_drain (app : App) (ps : List ℚ) (p : ℚ)
    (t : ThreadLoadStatus)
    (_hrange : ∀ q ∈ ps, 0 ≤ q ∧ q ≤ 1)
    (hlast : ps.getLast? = some p)
    (hterm : isTerminal t = true) :
    handle_loading_progress
      (handle_load_messages app (ps.map ThreadLoadStatus.Loading)) = some p ∧
    handle_loading_progress
      (handle_load_messages app (ps.map ThreadLoadStatus.Loading ++ [t])) = none := by
  constructor
  · rw [handle_loading_progress, handle_load_messages_loading app ps p hlast]
  · unfold handle_load_messages
    rw [List.foldl_append]
    cases t with
    | Inactive => simp [isTerminal] at hterm
    | Loading q => simp [isTerminal] at hterm
    | Success d => rfl
    | Error e => rfl

/-- C5 witness: draining progress 0 then 1 then `Success`. -/
theorem c5_progress_drain_witness :
    handle_loading_progress
      (handle_load_messages App.defaultApp
        ([(0 : ℚ), 1].map ThreadLoadStatus.Loading)) = some (1 : ℚ) ∧
    handle_loading_progress
      (handle_load_messages App.defaultApp
        ([(0 : ℚ), 1].map ThreadLoadStatus.Loading ++
          [ThreadLoadStatus.Success 7])) = none :=
  c5_progress_drain App.defaultApp [(0 : ℚ), 1] 1
    (ThreadLoadStatus.Success 7) (by decide) (by decide) rfl

/-- C6: the worker run for a dispatched load sends zero or more `Loading`
messages and then exactly one terminal message — `Success(disk)` when the
external load entry point returns `Ok(disk)`, `Error(e)` when it returns
`Err(e)` — never two terminals and never none. -/
theorem c6_worker_one_terminal (callback_events : List LoadingStatus)
    (load_result : Except DiskImageError DiskImage) :
    ((workerRun callback_events load_result).filter isTerminal).length = 1 ∧
    (workerRun callback_events load_result).dropLast.all isLoadingMsg = true ∧
    (workerRun callback_events load_result).getLast? =
      some (terminalMessage load_result) ∧
    isTerminal (terminalMessage load_result) = true := by
  obtain ⟨hall, hfil⟩ := workerCallback_no_terminal callback_events
  unfold workerRun
  refine ⟨?_, ?_, ?_, terminalMessage_isTerminal load_result⟩
  · rw [List.filter_append, hfil]
    simp [terminalMessage_isTerminal load_result]
  · rw [List.dropLast_concat]
    exact hall
  · exact List.getLast?_concat _

/-- C7: across any frame, the redraw mode changes only in two ways: from
Reactive to Continuous when a new load is dispatched (pending file with
bytes, worker spawned) with no terminal message drained that frame, and
from Continuous to Reactive when a terminal load status is drained; no
other change of the redraw mode ever occurs. -/
theorem c7_run_mode_transitions (app : App) (raw_dropped : List DroppedFile)
    (spawnOk : Bool) (msgs : List ThreadLoadStatus)
    (hchange : (appUpdate raw_dropped spawnOk msgs app).run_mode ≠ app.run_mode) :
    (app.run_mode = RunMode.Reactive ∧
      (appUpdate raw_dropped spawnOk msgs app).run_mode = RunMode.Continuous ∧
      dispatchTaken app raw_dropped = true ∧ spawnOk = true ∧
      msgs.any isTerminal = false) ∨
    (app.run_mode = RunMode.Continuous ∧
      (appUpdate raw_dropped spawnOk msgs app).run_mode = RunMode.Reactive ∧
      msgs.any isTerminal = true) := by
  have hu : (appUpdate raw_dropped spawnOk msgs app).run_mode =
      if msgs.any isTerminal then RunMode.Reactive
      else if dispatchTaken app raw_dropped && spawnOk then RunMode.Continuous
      else app.run_mode := by
    unfold appUpdate
    rw [handle_load_messages_run_mode, handle_dropped_files_run_mode]
  by_cases ht : msgs.any isTerminal = true
  · right
    cases hm : app.run_mode with
    | Reactive =>
      rw [hu, ht, hm] at hchange
      simp at hchange
    | Continuous =>
      exact ⟨rfl, by simp [hu, ht], ht⟩
  · have ht' : msgs.any isTerminal = false := Bool.eq_false_iff.mpr ht
    by_cases hd : (dispatchTaken app raw_dropped && spawnOk) = true
    · left
      obtain ⟨hd1, hd2⟩ := Bool.and_eq_true_iff.mp hd
      cases hm : app.run_mode with
      | Reactive =>
        exact ⟨rfl, by simp [hu, ht', hd], hd1, hd2, ht'⟩
      | Continuous =>
        rw [hu, ht', hd, hm] at hchange
        simp at hchange
    · have hd' : (dispatchTaken app raw_dropped && spawnOk) = false :=
        Bool.eq_false_iff.mpr hd
      rw [hu, ht', hd'] at hchange
      simp at hchange

/-- C7 witness: dropping `fileA` on the default (Reactive) state with a
successful spawn and nothing drained changes the mode, and the change is
the Reactive-to-Continuous dispatch transition. -/
theorem c7_run_mode_transitions_witness :
    (App.defaultApp.run_mode = RunMode.Reactive ∧
      (appUpdate [fileA] true [] App.defaultApp).run_mode = RunMode.Continuous ∧
      dispatchTaken App.defaultApp [fileA] = true ∧ (true : Bool) = true ∧
      ([] : List ThreadLoadStatus).any isTerminal = false) ∨
    (App.defaultApp.run_mode = RunMode.Continuous ∧
      (appUpdate [fileA] true [] App.defaultApp).run_mode = RunMode.Reactive ∧
      ([] : List ThreadLoadStatus).any isTerminal = true) :=
  c7_run_mode_transitions App.defaultApp [fileA] true [] (by decide)

/-- C8: the persistent label round-trips through save followed by load,
and loading an old snapshot in which the label field is missing succeeds
and yields the label's default value (the empty string from the derived
`Default`). -/
theorem c8_label_roundtrip (s : PersistentState) :
    loadPersistentState (savePersistentState s) = s ∧
    loadPersistentState { label := none } = PersistentState.defaultValue := by
  constructor
  · cases s
    rfl
  · rfl

/-- C9: when spawning the background worker fails (the `Err` branch of
`spawn_closure_worker`, which only logs), no load starts — the dispatch
produces no channel message at all — and the run mode, Reactive before the
attempt, remains Reactive instead of switching to Continuous. -/
theorem c9_spawn_failure_reactive (app : App) (raw_dropped : List DroppedFile)
    (callback_events : List LoadingStatus)
    (load_result : Except DiskImageError DiskImage)
    (h : app.run_mode = RunMode.Reactive) :
    (handle_dropped_files raw_dropped false app).run_mode = RunMode.Reactive ∧
    dispatchMessages false callback_events load_result = [] := by
  constructor
  · rw [handle_dropped_files_run_mode]
    simp [h]
  · rfl

/-- C9 witness: a failed spawn on the default state after dropping
`fileA`. -/
theorem c9_spawn_failure_reactive_witness :
    (handle_dropped_files [fileA] false App.defaultApp).run_mode =
      RunMode.Reactive ∧
    dispatchMessages false [LoadingStatus.Progress 0] (Except.ok 7) = [] :=
  c9_spawn_failure_reactive App.defaultApp [fileA]
    [LoadingStatus.Progress 0] (Except.ok 7) rfl

/-- C10: even when the worker spawn fails, the dispatch step has already
discarded the stored disk-image handle, recorded the new file's name as
the current image name, and cleared the pending dropped-file slot, while
the run mode is left unchanged — a spawn failure is not atomic with
respect to the application state. -/
theorem c10_spawn_failure_state (app : App) (raw_dropped : List DroppedFile)
    (f : DroppedFile)
    (hf : pendingAfterIntake app raw_dropped = some f)
    (hb : f.bytes.isSome = true) :
    (handle_dropped_files raw_dropped false app).disk_image = none ∧
    (handle_dropped_files raw_dropped false app).disk_image_name = some f.name ∧
    (handle_dropped_files raw_dropped false app).dropped_files = [] ∧
    (handle_dropped_files raw_dropped false app).run_mode = app.run_mode := by
  obtain ⟨h1, h2, h3⟩ := handle_dropped_files_dispatch raw_dropped false app f hf hb
  refine ⟨h1, h2, h3, ?_⟩
  rw [handle_dropped_files_run_mode]
  simp

/-- C10 witness: dropping `fileA` on a state holding a previously loaded
image, with the spawn failing: the old handle is gone, the new name is
recorded, the slot is cleared, the mode stays Reactive. -/
theorem c10_spawn_failure_state_witness :
    (handle_dropped_files [fileA] false appWithImage).disk_image = none ∧
    (handle_dropped_files [fileA] false appWithImage).disk_image_name =
      some fileA.name ∧
    (handle_dropped_files [fileA] false appWithImage).dropped_files = [] ∧
    (handle_dropped_files [fileA] false appWithImage).run_mode =
      appWithImage.run_mode :=
  c10_spawn_failure_state appWithImage [fileA] fileA (by decide) (by decide)

end FFWeb
